import Mathlib

/-!
Verification of the evaluation metrics and custom YOLO loss of the
traffic-sign-recognition repository (`metrics.py`, `network.py`).

Numbers are modelled as rationals.  numpy float division is exact on the
concrete inputs considered here; a division whose denominator is zero does
not produce a rational (numpy yields NaN/inf, Python integer division
raises), so every division site is modelled with an explicit
denominator-zero check returning `Option`.
-/

/-- A corner-form box, the four columns `[:,0] .. [:,3]` of a row of the
arrays handled by `EvalMetrics.boxes_iou` in `metrics.py`. -/
structure Box where
  c0 : ℚ
  c1 : ℚ
  c2 : ℚ
  c3 : ℚ
deriving DecidableEq, Repr

/-- The area of a box after the min/max endpoint normalization performed at
the top of `EvalMetrics.boxes_iou`: `(ymax - ymin) * (xmax - xmin)`. -/
def box_area (b : Box) : ℚ :=
  (max b.c0 b.c2 - min b.c0 b.c2) * (max b.c1 b.c3 - min b.c1 b.c3)

/-- The intersection-area term of `EvalMetrics.boxes_iou`:
`max(ymax_inter - ymin_inter, 0) * max(xmax_inter - xmin_inter, 0)`. -/
def inter_area (b1 b2 : Box) : ℚ :=
  max (min (max b1.c0 b1.c2) (max b2.c0 b2.c2) -
       max (min b1.c0 b1.c2) (min b2.c0 b2.c2)) 0 *
  max (min (max b1.c1 b1.c3) (max b2.c1 b2.c3) -
       max (min b1.c1 b1.c3) (min b2.c1 b2.c3)) 0

/-- The denominator `area_1 + area_2 - area_inter` of the IOU division in
`EvalMetrics.boxes_iou`. -/
def iou_denominator (b1 b2 : Box) : ℚ :=
  box_area b1 + box_area b2 - inter_area b1 b2

/-- One elementwise entry of `EvalMetrics.boxes_iou` (`metrics.py` lines
233-258).  When the denominator is zero the numpy float division yields
NaN (or inf), not a rational value, modelled as `none`.  The guard line
`iou[np.where(area_1 < 0) or np.where(area_2 < 0)] = 0` applies only to
pairs with `area_1 < 0`: `np.where` returns a 1-tuple, which is always
truthy, so the Python `or` short-circuits to its first operand.  After the
min/max normalization `area_1` is never negative, so the guard never
fires; it is kept here as written. -/
def boxes_iou_pair (b1 b2 : Box) : Option ℚ :=
  let area1 := box_area b1
  let areaI := inter_area b1 b2
  let denom := iou_denominator b1 b2
  if denom = 0 then none
  else some (if area1 < 0 then 0 else areaI / denom)

/-- `EvalMetrics.boxes_iou` on two aligned batches of corner-form boxes:
all the min/max/area/intersection arithmetic is elementwise. -/
def boxes_iou (box1 box2 : List Box) : List (Option ℚ) :=
  List.zipWith boxes_iou_pair box1 box2

/-- `EvalMetrics.get_iou_for_image` (`metrics.py` lines 170-182): row `i`
of the matrix is `boxes_iou(np.full(pred.shape, gt[i]), pred)`, i.e. ground
truth `i` against every prediction. -/
def get_iou_for_image (gt pred : List Box) : List (List (Option ℚ)) :=
  gt.map (fun box => boxes_iou (List.replicate pred.length box) pred)

/-- `np.amax` of one row of the IOU matrix.  In the code the row is always
nonempty (the branch requires `shape[1] != 0`); the empty case is given
the junk value 0 and is never reached through `get_metrics_params_from_iou`
on well-formed inputs. -/
def amax : List ℚ → ℚ
  | [] => 0
  | h :: t => t.foldl max h

/-- `EvalMetrics.get_metrics_params_from_iou` (`metrics.py` lines 184-206).
The branch condition in the source is `iou_image.shape[1] != 0`; the matrix
is created with shape `(0, pred.shape[0])` and every appended row has
length `pred.shape[0]`, so `shape[1]` is always the number of predictions.
`tp`, `fp`, `fn` are Python integers obtained by subtraction, hence `ℤ`.
Result order: `(iou, gt_num, tp, fp, fn)`. -/
def get_metrics_params_from_iou (iou_image : List (List ℚ)) (gt pred : List Box)
    (iou_threshold : ℚ) : ℚ × ℕ × ℤ × ℤ × ℤ :=
  if pred.length ≠ 0 then
    let maxima := iou_image.map amax
    let true_boxes := maxima.filter (fun v => decide (iou_threshold ≤ v))
    (true_boxes.sum, gt.length, (true_boxes.length : ℤ),
      (pred.length : ℤ) - true_boxes.length,
      (gt.length : ℤ) - true_boxes.length)
  else
    (0, gt.length, 0, (pred.length : ℤ), (gt.length : ℤ))

/-- Python scalar division as used in `EvalMetrics.calculate_metrics`:
division by zero does not produce a value (ZeroDivisionError for Python
numbers, NaN for numpy floats), modelled as `none`. -/
def pydiv (a b : ℚ) : Option ℚ :=
  if b = 0 then none else some (a / b)

/-- `EvalMetrics.calculate_metrics` (`metrics.py` lines 208-217), with the
source's evaluation order: `avg_iou` first, then accuracy, precision,
recall, f1.  The first division whose denominator is zero aborts the
computation. -/
def calculate_metrics (iou gt_num tp fp fn : ℚ) : Option (ℚ × ℚ × ℚ × ℚ × ℚ) := do
  let avg_iou ← pydiv iou tp
  let accuracy ← pydiv tp gt_num
  let prec ← pydiv tp (tp + fp)
  let rcl ← pydiv tp (tp + fn)
  let f1_score ← pydiv (2 * prec * rcl) (prec + rcl)
  return (avg_iou, accuracy, prec, rcl, f1_score)

/-- `EvalMetrics.get_metrics_params` (`metrics.py` lines 134-153): fold over
`zip(images, labels)` accumulating the five per-image components.  The
per-image computation `get_one_image_metrics_params` (which runs the
network) is abstracted as the function argument `one_image`. -/
def get_metrics_params {α β : Type} (one_image : α → β → ℚ × ℕ × ℤ × ℤ × ℤ)
    (images : List α) (labels : List β) : ℚ × ℕ × ℤ × ℤ × ℤ :=
  (images.zip labels).foldl
    (fun acc il =>
      let r := one_image il.1 il.2
      (acc.1 + r.1, acc.2.1 + r.2.1, acc.2.2.1 + r.2.2.1,
        acc.2.2.2.1 + r.2.2.2.1, acc.2.2.2.2 + r.2.2.2.2))
    (0, 0, 0, 0, 0)

/-- A box used in several concrete evaluations: corners (0,0) and (2,2). -/
def unit_box : Box := ⟨0, 0, 2, 2⟩

/-! ## Basic facts about the box geometry -/

/-- After min/max normalization both side lengths are nonnegative, so the
area computed by `boxes_iou` is never negative (which is why the
`area_1 < 0` guard in the source never fires). -/
theorem box_area_nonneg (b : Box) : 0 ≤ box_area b := by
  unfold box_area
  have h0 : 0 ≤ max b.c0 b.c2 - min b.c0 b.c2 := by
    have := min_le_max (a := b.c0) (b := b.c2)
    linarith
  have h1 : 0 ≤ max b.c1 b.c3 - min b.c1 b.c3 := by
    have := min_le_max (a := b.c1) (b := b.c3)
    linarith
  positivity

/-- If a box has zero area then its intersection with any box is zero:
one of its normalized side lengths is zero, and the corresponding
intersection side length is at most it. -/
theorem inter_area_eq_zero_left (b1 b2 : Box) (h : box_area b1 = 0) :
    inter_area b1 b2 = 0 := by
  have h0 : 0 ≤ max b1.c0 b1.c2 - min b1.c0 b1.c2 := by
    have := min_le_max (a := b1.c0) (b := b1.c2)
    linarith
  have h1 : 0 ≤ max b1.c1 b1.c3 - min b1.c1 b1.c3 := by
    have := min_le_max (a := b1.c1) (b := b1.c3)
    linarith
  unfold box_area at h
  rcases mul_eq_zero.mp h with hy | hx
  · have hyy : max b1.c0 b1.c2 = min b1.c0 b1.c2 := by linarith
    unfold inter_area
    have hle : min (max b1.c0 b1.c2) (max b2.c0 b2.c2) -
        max (min b1.c0 b1.c2) (min b2.c0 b2.c2) ≤ 0 := by
      have ha : min (max b1.c0 b1.c2) (max b2.c0 b2.c2) ≤ max b1.c0 b1.c2 :=
        min_le_left _ _
      have hb : min b1.c0 b1.c2 ≤ max (min b1.c0 b1.c2) (min b2.c0 b2.c2) :=
        le_max_left _ _
      linarith
    have : max (min (max b1.c0 b1.c2) (max b2.c0 b2.c2) -
        max (min b1.c0 b1.c2) (min b2.c0 b2.c2)) 0 = 0 := max_eq_right hle
    rw [this, zero_mul]
  · have hxx : max b1.c1 b1.c3 = min b1.c1 b1.c3 := by linarith
    unfold inter_area
    have hle : min (max b1.c1 b1.c3) (max b2.c1 b2.c3) -
        max (min b1.c1 b1.c3) (min b2.c1 b2.c3) ≤ 0 := by
      have ha : min (max b1.c1 b1.c3) (max b2.c1 b2.c3) ≤ max b1.c1 b1.c3 :=
        min_le_left _ _
      have hb : min b1.c1 b1.c3 ≤ max (min b1.c1 b1.c3) (min b2.c1 b2.c3) :=
        le_max_left _ _
      linarith
    have : max (min (max b1.c1 b1.c3) (max b2.c1 b2.c3) -
        max (min b1.c1 b1.c3) (min b2.c1 b2.c3)) 0 = 0 := max_eq_right hle
    rw [this, mul_zero]

/-- Mirror image of `inter_area_eq_zero_left`. -/
theorem inter_area_eq_zero_right (b1 b2 : Box) (h : box_area b2 = 0) :
    inter_area b1 b2 = 0 := by
  have h0 : 0 ≤ max b2.c0 b2.c2 - min b2.c0 b2.c2 := by
    have := min_le_max (a := b2.c0) (b := b2.c2)
    linarith
  have h1 : 0 ≤ max b2.c1 b2.c3 - min b2.c1 b2.c3 := by
    have := min_le_max (a := b2.c1) (b := b2.c3)
    linarith
  unfold box_area at h
  rcases mul_eq_zero.mp h with hy | hx
  · unfold inter_area
    have hle : min (max b1.c0 b1.c2) (max b2.c0 b2.c2) -
        max (min b1.c0 b1.c2) (min b2.c0 b2.c2) ≤ 0 := by
      have ha : min (max b1.c0 b1.c2) (max b2.c0 b2.c2) ≤ max b2.c0 b2.c2 :=
        min_le_right _ _
      have hb : min b2.c0 b2.c2 ≤ max (min b1.c0 b1.c2) (min b2.c0 b2.c2) :=
        le_max_right _ _
      linarith
    have : max (min (max b1.c0 b1.c2) (max b2.c0 b2.c2) -
        max (min b1.c0 b1.c2) (min b2.c0 b2.c2)) 0 = 0 := max_eq_right hle
    rw [this, zero_mul]
  · unfold inter_area
    have hle : min (max b1.c1 b1.c3) (max b2.c1 b2.c3) -
        max (min b1.c1 b1.c3) (min b2.c1 b2.c3) ≤ 0 := by
      have ha : min (max b1.c1 b1.c3) (max b2.c1 b2.c3) ≤ max b2.c1 b2.c3 :=
        min_le_right _ _
      have hb : min b2.c1 b2.c3 ≤ max (min b1.c1 b1.c3) (min b2.c1 b2.c3) :=
        le_max_right _ _
      linarith
    have : max (min (max b1.c1 b1.c3) (max b2.c1 b2.c3) -
        max (min b1.c1 b1.c3) (min b2.c1 b2.c3)) 0 = 0 := max_eq_right hle
    rw [this, mul_zero]

/-! ## Claims about `boxes_iou` (C2) -/

/-- Claim C2 counterexample: for the two degenerate point boxes
`(0,0,0,0)` and `(5,5,5,5)` both areas are non-positive (both are zero)
and there is no intersection, yet `boxes_iou` does not return 0 for the
pair: the denominator `area_1 + area_2 - area_inter` is zero, so the
source divides 0 by 0, which yields NaN, not 0. -/
theorem boxes_iou_degenerate_counterexample :
    box_area ⟨0, 0, 0, 0⟩ ≤ 0 ∧ box_area ⟨5, 5, 5, 5⟩ ≤ 0 ∧
    inter_area ⟨0, 0, 0, 0⟩ ⟨5, 5, 5, 5⟩ = 0 ∧
    boxes_iou [⟨0, 0, 0, 0⟩] [⟨5, 5, 5, 5⟩] ≠ [some 0] := by
  have harea1 : box_area ⟨0, 0, 0, 0⟩ = 0 := by
    norm_num [box_area]
  have harea2 : box_area ⟨5, 5, 5, 5⟩ = 0 := by
    norm_num [box_area]
  have hinter : inter_area ⟨0, 0, 0, 0⟩ ⟨5, 5, 5, 5⟩ = 0 := by
    norm_num [inter_area, min_def, max_def]
  have hdenom : iou_denominator ⟨0, 0, 0, 0⟩ ⟨5, 5, 5, 5⟩ = 0 := by
    rw [iou_denominator, harea1, harea2, hinter]
    norm_num
  have hpair : boxes_iou [⟨0, 0, 0, 0⟩] [⟨5, 5, 5, 5⟩] = [none] := by
    simp [boxes_iou, boxes_iou_pair, hdenom]
  refine ⟨le_of_eq harea1, le_of_eq harea2, hinter, ?_⟩
  rw [hpair]
  simp

/-- Claim C2 (amended): if either box has non-positive area and the IOU
denominator `area_1 + area_2 - area_inter` is nonzero, then the
elementwise IOU returned by `boxes_iou` for that pair is 0.  When both
areas are zero the denominator is zero and the source computes `0/0`
(NaN), so no value is returned for that pair. -/
theorem boxes_iou_degenerate_guard (b1 b2 : Box)
    (harea : box_area b1 ≤ 0 ∨ box_area b2 ≤ 0)
    (hdenom : iou_denominator b1 b2 ≠ 0) :
    boxes_iou [b1] [b2] = [some 0] := by
  have hI : inter_area b1 b2 = 0 := by
    rcases harea with h | h
    · exact inter_area_eq_zero_left b1 b2 (le_antisymm h (box_area_nonneg b1))
    · exact inter_area_eq_zero_right b1 b2 (le_antisymm h (box_area_nonneg b2))
  have hnotlt : ¬ box_area b1 < 0 := not_lt.mpr (box_area_nonneg b1)
  simp only [boxes_iou, List.zipWith_cons_cons, List.zipWith_nil_right,
    boxes_iou_pair]
  rw [if_neg hdenom, if_neg hnotlt, hI, zero_div]

/-- Witness for `boxes_iou_degenerate_guard`: a degenerate point box
against a box of positive area. -/
theorem boxes_iou_degenerate_guard_witness :
    box_area ⟨0, 0, 0, 0⟩ ≤ 0 ∧ iou_denominator ⟨0, 0, 0, 0⟩ unit_box ≠ 0 ∧
    boxes_iou [⟨0, 0, 0, 0⟩] [unit_box] = [some 0] := by
  have harea : box_area (⟨0, 0, 0, 0⟩ : Box) ≤ 0 := by
    norm_num [box_area]
  have hdenom : iou_denominator ⟨0, 0, 0, 0⟩ unit_box ≠ 0 := by
    norm_num [iou_denominator, box_area, inter_area, unit_box, min_def, max_def]
  exact ⟨harea, hdenom,
    boxes_iou_degenerate_guard ⟨0, 0, 0, 0⟩ unit_box (Or.inl harea) hdenom⟩

/-! ## Claims about the per-image matcher (C1, C3, C9) -/

/-- Claim C1: per-image matcher, general branch.  For ground truths `gt`
(size `m ≥ 1`) and predictions `pred` (size `n ≥ 1`) whose IOU matrix is
the everywhere-defined `M` (row `i`, column `j` holds the IOU of ground
truth `i` with prediction `j`), the matcher takes each row's maximum,
counts a ground truth as true iff its row maximum reaches the threshold,
and returns `tp` = number of true ground truths, `fp = n - tp`,
`fn = m - tp`, `gt_num = m`, `iou = sum of the true row maxima`.  No
mutual exclusivity between ground truths is involved anywhere. -/
theorem get_metrics_params_from_iou_general (gt pred : List Box)
    (M : List (List ℚ)) (iou_threshold : ℚ)
    (hm : 1 ≤ gt.length) (hn : 1 ≤ pred.length)
    (hM : get_iou_for_image gt pred = M.map (List.map some)) :
    get_metrics_params_from_iou M gt pred iou_threshold =
      (((M.map amax).filter (fun v => decide (iou_threshold ≤ v))).sum,
        gt.length,
        ((M.map amax).countP (fun v => decide (iou_threshold ≤ v)) : ℤ),
        (pred.length : ℤ) -
          (M.map amax).countP (fun v => decide (iou_threshold ≤ v)),
        (gt.length : ℤ) -
          (M.map amax).countP (fun v => decide (iou_threshold ≤ v))) := by
  have hne : pred.length ≠ 0 := by omega
  rw [get_metrics_params_from_iou, if_pos hne]
  rw [List.countP_eq_length_filter]

/-- Witness for `get_metrics_params_from_iou_general`: one ground truth
and one identical prediction, threshold 1/2; the IOU matrix is `[[1]]`
and the matcher reports `(1, 1, 1, 0, 0)`. -/
theorem get_metrics_params_from_iou_general_witness :
    get_iou_for_image [unit_box] [unit_box] = [[some 1]] ∧
    get_metrics_params_from_iou [[1]] [unit_box] [unit_box] (1 / 2) =
      (1, 1, 1, 0, 0) := by
  have hM : get_iou_for_image [unit_box] [unit_box] =
      [[(1 : ℚ)]].map (List.map some) := by
    have hpair : boxes_iou_pair unit_box unit_box = some 1 := by
      have hdenom : iou_denominator unit_box unit_box = 4 := by
        norm_num [iou_denominator, box_area, inter_area, unit_box, min_def,
          max_def]
      have hinter : inter_area unit_box unit_box = 4 := by
        norm_num [inter_area, unit_box, min_def, max_def]
      have harea : ¬ box_area unit_box < 0 := by
        norm_num [box_area, unit_box, min_def, max_def]
      rw [boxes_iou_pair]
      simp only [hdenom, hinter]
      norm_num [harea]
    simp [get_iou_for_image, boxes_iou, hpair]
  refine ⟨hM, ?_⟩
  rw [get_metrics_params_from_iou_general [unit_box] [unit_box] [[1]] (1 / 2)
    (by simp) (by simp) hM]
  norm_num [amax]

/-- Claim C3: per-image matcher, empty branch.  Whenever there are no
ground truths or no predictions (the IOU matrix having one row per ground
truth), the result is exactly `(iou=0, gt_num=m, tp=0, fp=n, fn=m)`:
with `n = 0` the source takes its `else` branch and returns
`fp = pred.shape[0] = 0`; with `m = 0` and `n ≥ 1` the matrix is empty, so
the general branch counts nothing and returns `fp = n`, `fn = 0`. -/
theorem get_metrics_params_from_iou_empty (gt pred : List Box)
    (M : List (List ℚ)) (iou_threshold : ℚ)
    (h : gt.length = 0 ∨ pred.length = 0)
    (hM : M.length = gt.length) :
    get_metrics_params_from_iou M gt pred iou_threshold =
      (0, gt.length, 0, (pred.length : ℤ), (gt.length : ℤ)) := by
  rcases h with hm | hn
  · by_cases hp : pred.length = 0
    · rw [get_metrics_params_from_iou, if_neg (by omega)]
    · have hMnil : M = [] := List.length_eq_zero.mp (hM.trans hm)
      rw [get_metrics_params_from_iou, if_pos hp]
      subst hMnil
      simp [hm]
  · rw [get_metrics_params_from_iou, if_neg (by omega)]

/-- Witness for `get_metrics_params_from_iou_empty`: no ground truths, one
prediction; the result is `(0, 0, 0, 1, 0)`. -/
theorem get_metrics_params_from_iou_empty_witness :
    get_metrics_params_from_iou [] [] [unit_box] 0 = (0, 0, 0, 1, 0) := by
  have h := get_metrics_params_from_iou_empty [] [unit_box] [] 0
    (Or.inl rfl) rfl
  simpa using h

/-- Claim C9: the matcher's false-positive count can be negative.  With
one prediction identical to both of two ground truths (threshold 1/2) the
IOU matrix is `[[1], [1]]`, both row maxima pass the threshold, so
`tp = 2` exceeds `n = 1` and the returned `fp = n - tp = -1 < 0`. -/
theorem get_metrics_params_from_iou_negative_fp :
    get_iou_for_image [unit_box, unit_box] [unit_box] =
      [[some 1], [some 1]] ∧
    get_metrics_params_from_iou [[1], [1]] [unit_box, unit_box] [unit_box]
      (1 / 2) = (2, 2, 2, -1, 0) ∧
    (get_metrics_params_from_iou [[1], [1]] [unit_box, unit_box] [unit_box]
      (1 / 2)).2.2.2.1 < 0 := by
  have hpair : boxes_iou_pair unit_box unit_box = some 1 := by
    have hdenom : iou_denominator unit_box unit_box = 4 := by
      norm_num [iou_denominator, box_area, inter_area, unit_box, min_def,
        max_def]
    have hinter : inter_area unit_box unit_box = 4 := by
      norm_num [inter_area, unit_box, min_def, max_def]
    have harea : ¬ box_area unit_box < 0 := by
      norm_num [box_area, unit_box, min_def, max_def]
    rw [boxes_iou_pair]
    simp only [hdenom, hinter]
    norm_num [harea]
  refine ⟨by simp [get_iou_for_image, boxes_iou, hpair], ?_, ?_⟩
  · rw [get_metrics_params_from_iou, if_pos (by simp)]
    norm_num [amax]
  · rw [get_metrics_params_from_iou, if_pos (by simp)]
    norm_num [amax]

/-! ## Claims about the metrics calculator (C5, C6) -/

/-- Claim C5: with every denominator nonzero, `calculate_metrics` returns
`avg_iou = iou/tp`, `accuracy = tp/gt_num`, `precision = tp/(tp+fp)`,
`recall = tp/(tp+fn)` and `f1 = 2*precision*recall/(precision+recall)`. -/
theorem calculate_metrics_formulas (iou gt_num tp fp fn : ℚ)
    (htp : tp ≠ 0) (hgt : gt_num ≠ 0) (hpfp : tp + fp ≠ 0)
    (hpfn : tp + fn ≠ 0)
    (hf1 : tp / (tp + fp) + tp / (tp + fn) ≠ 0) :
    calculate_metrics iou gt_num tp fp fn =
      some (iou / tp, tp / gt_num, tp / (tp + fp), tp / (tp + fn),
        2 * (tp / (tp + fp)) * (tp / (tp + fn)) /
          (tp / (tp + fp) + tp / (tp + fn))) := by
  rw [calculate_metrics]
  simp only [pydiv, if_neg htp, if_neg hgt, if_neg hpfp, if_neg hpfn,
    if_neg hf1, Option.bind_some, Option.some_bind, bind]
  rfl

/-- Witness for `calculate_metrics_formulas`: the spec scenario
`tp=8, fp=2, fn=2, gt_num=10, iou_sum=6.4` yields 0.8 for every metric. -/
theorem calculate_metrics_formulas_witness :
    calculate_metrics (32 / 5) 10 8 2 2 =
      some (4 / 5, 4 / 5, 4 / 5, 4 / 5, 4 / 5) := by
  rw [calculate_metrics_formulas (32 / 5) 10 8 2 2 (by norm_num)
    (by norm_num) (by norm_num) (by norm_num) (by norm_num)]
  norm_num

/-- Claim C6: `calculate_metrics` performs no guarding; when `tp = 0` the
very first statement `iou = iou / tp` divides by zero, so the calculator
fails instead of returning a metric tuple, whatever the other inputs. -/
theorem calculate_metrics_tp_zero (iou gt_num fp fn : ℚ) :
    calculate_metrics iou gt_num 0 fp fn = none := by
  rw [calculate_metrics]
  simp [pydiv]

/-! ## Claim about dataset aggregation (C8) -/

/-- The aggregation loop of `get_metrics_params` is the sum of the
per-image 5-tuples in the product additive monoid. -/
theorem get_metrics_params_eq_sum {α β : Type}
    (one_image : α → β → ℚ × ℕ × ℤ × ℤ × ℤ)
    (images : List α) (labels : List β) :
    get_metrics_params one_image images labels =
      ((images.zip labels).map (fun il => one_image il.1 il.2)).sum := by
  rw [get_metrics_params]
  have hstep : ∀ (l : List (α × β)) (acc : ℚ × ℕ × ℤ × ℤ × ℤ),
      l.foldl
        (fun acc il =>
          let r := one_image il.1 il.2
          (acc.1 + r.1, acc.2.1 + r.2.1, acc.2.2.1 + r.2.2.1,
            acc.2.2.2.1 + r.2.2.2.1, acc.2.2.2.2 + r.2.2.2.2))
        acc =
      acc + (l.map (fun il => one_image il.1 il.2)).sum := by
    intro l
    induction l with
    | nil => intro acc; simp
    | cons x xs ih =>
        intro acc
        rw [List.foldl_cons, ih, List.map_cons, List.sum_cons]
        obtain ⟨a, b, c, d, e⟩ := acc
        obtain ⟨a2, b2, c2, d2, e2⟩ := one_image x.1 x.2
        rw [← add_assoc]
        simp only [Prod.mk_add_mk]
  rw [hstep]
  have h0 : ((0, 0, 0, 0, 0) : ℚ × ℕ × ℤ × ℤ × ℤ) = 0 := rfl
  rw [h0, zero_add]

/-- Claim C8: aggregation order-independence.  The dataset aggregator is a
fold summing the per-image tuples `(iou, gt_num, tp, fp, fn)` with the
commutative and associative componentwise addition, so presenting the
`(image, label)` pairs of a split in any order yields identical
dataset-level totals. -/
theorem get_metrics_params_perm_invariant {α β : Type}
    (one_image : α → β → ℚ × ℕ × ℤ × ℤ × ℤ)
    (images images2 : List α) (labels labels2 : List β)
    (h : (images.zip labels).Perm (images2.zip labels2)) :
    get_metrics_params one_image images labels =
      get_metrics_params one_image images2 labels2 := by
  rw [get_metrics_params_eq_sum, get_metrics_params_eq_sum]
  exact (h.map (fun il => one_image il.1 il.2)).sum_eq

/-- Witness for `get_metrics_params_perm_invariant`: two images presented
in the two possible orders give the same totals. -/
theorem get_metrics_params_perm_invariant_witness :
    get_metrics_params (fun (a b : ℚ) => (a * b, 1, 1, 1, 1)) [1, 2] [3, 4] =
      get_metrics_params (fun (a b : ℚ) => (a * b, 1, 1, 1, 1)) [2, 1] [4, 3] :=
  get_metrics_params_perm_invariant _ [1, 2] [2, 1] [3, 4] [4, 3]
    (List.Perm.swap ((2 : ℚ), (4 : ℚ)) ((1 : ℚ), (3 : ℚ)) [])

/-! ## The custom YOLO loss (`YOLO.custom_loss`, `network.py` lines 255-321)

The two tensors are modelled after the initial `tf.reshape` as
`batch × cells × channels` lists of rationals.  `tf.sqrt` has no rational
counterpart, so it is passed in as an uninterpreted function `sqrtF`; none
of the verified claims depends on its values. -/

/-- Loss hyperparameters read from the configuration in `YOLO.__init__`. -/
structure LossConfig where
  number_of_classes : ℕ
  alpha_coord : ℚ
  alpha_noobj : ℚ

/-- `tf.squared_difference`. -/
def squared_difference (a b : ℚ) : ℚ := (a - b) ^ 2

/-- The slice `tensor[:, :, i]`: channel `i` of every cell of every batch
item (0 when the cell row is shorter than `i+1`, which does not occur on
well-formed inputs). -/
def channel (i : ℕ) (t : List (List (List ℚ))) : List (List ℚ) :=
  t.map (fun cells => cells.map (fun cell => cell.getD i 0))

/-- An elementwise binary tensorflow op (`tf.add`, `tf.multiply`,
`tf.squared_difference`) on `batch × cells` matrices. -/
def mat_op (f : ℚ → ℚ → ℚ) (A B : List (List ℚ)) : List (List ℚ) :=
  List.zipWith (List.zipWith f) A B

/-- `tf.scalar_mul`. -/
def mat_scale (s : ℚ) (A : List (List ℚ)) : List (List ℚ) :=
  A.map (List.map (fun v => s * v))

/-- An elementwise unary op (`tf.sqrt`, modelled by `sqrtF`). -/
def mat_map (s : ℚ → ℚ) (A : List (List ℚ)) : List (List ℚ) :=
  A.map (List.map s)

/-- `np.sum` over a whole `batch × cells` matrix. -/
def mat_sum (A : List (List ℚ)) : ℚ := (A.map List.sum).sum

/-- First `loss +=` of `custom_loss` (`network.py` 287-294): the
coordinate term, masked by `p_true = true[:, :, 5]`. -/
def coordinate_loss (alpha_coord : ℚ) (t_true t_pred : List (List (List ℚ))) : ℚ :=
  mat_sum (mat_scale alpha_coord (mat_op (· * ·) (channel 5 t_true)
    (mat_op (· + ·)
      (mat_op squared_difference (channel 0 t_true) (channel 0 t_pred))
      (mat_op squared_difference (channel 1 t_true) (channel 1 t_pred)))))

/-- Second `loss +=` (`network.py` 296-305): the dimension term on
square-rooted widths/heights, masked by `p_true`. -/
def dimension_loss (alpha_coord : ℚ) (sqrtF : ℚ → ℚ)
    (t_true t_pred : List (List (List ℚ))) : ℚ :=
  mat_sum (mat_scale alpha_coord (mat_op (· * ·) (channel 5 t_true)
    (mat_op (· + ·)
      (mat_op squared_difference (mat_map sqrtF (channel 2 t_true))
        (mat_map sqrtF (channel 2 t_pred)))
      (mat_op squared_difference (mat_map sqrtF (channel 3 t_true))
        (mat_map sqrtF (channel 3 t_pred))))))

/-- Third `loss +=` (`network.py` 308-309): objectness term on
`c = true[:, :, 4]`, masked by `p_true` (not by `1 - p_true`). -/
def objectness_loss (t_true t_pred : List (List (List ℚ))) : ℚ :=
  mat_sum (mat_op (· * ·) (channel 5 t_true)
    (mat_op squared_difference (channel 4 t_true) (channel 4 t_pred)))

/-- Fourth `loss +=` (`network.py` 311-315): the separately weighted
no-object term, which in the source uses the same `p_true` mask. -/
def no_object_loss (alpha_noobj : ℚ) (t_true t_pred : List (List (List ℚ))) : ℚ :=
  mat_sum (mat_scale alpha_noobj (mat_op (· * ·) (channel 5 t_true)
    (mat_op squared_difference (channel 4 t_true) (channel 4 t_pred))))

/-- Fifth `loss +=` (`network.py` 318-319): class-probability term. -/
def class_probability_loss (t_true t_pred : List (List (List ℚ))) : ℚ :=
  mat_sum (mat_op (· * ·) (channel 5 t_true)
    (mat_op squared_difference (channel 5 t_true) (channel 5 t_pred)))

/-- `YOLO.custom_loss` (`network.py` lines 255-321).  The variables
`p_true`/`p_pred` are bound only inside `if self.number_of_classes >= 1`,
yet every term uses `p_true`; with `number_of_classes == 0` the first
`loss +=` raises NameError before any value is produced, modelled as
`none`.  The `if self.number_of_classes >= 0` guards are always true.
The two `tf.reshape` calls are modelled by taking the tensors already in
`batch × cells × channels` shape. -/
def custom_loss (cfg : LossConfig) (sqrtF : ℚ → ℚ)
    (t_true t_pred : List (List (List ℚ))) : Option ℚ :=
  if 1 ≤ cfg.number_of_classes then
    some (coordinate_loss cfg.alpha_coord t_true t_pred +
      dimension_loss cfg.alpha_coord sqrtF t_true t_pred +
      objectness_loss t_true t_pred +
      no_object_loss cfg.alpha_noobj t_true t_pred +
      class_probability_loss t_true t_pred)
  else none

/-- Written from the claim's words: the sum over batch items and cells of
the channel-`k` mask of the true cell times a per-cell expression. -/
def masked_cell_sum (k : ℕ) (t_true t_pred : List (List (List ℚ)))
    (f : List ℚ → List ℚ → ℚ) : ℚ :=
  ((t_true.zip t_pred).map (fun bp =>
    ((bp.1.zip bp.2).map (fun cp => cp.1.getD k 0 * f cp.1 cp.2)).sum)).sum

/-- Written from the claim's words: the total loss in which every term is
masked by channel `k` of the true cell — coordinate term
`alpha_coord * Σ mask * ((x_t-x_p)² + (y_t-y_p)²)`, dimension term on
square roots, objectness term, `alpha_noobj`-weighted objectness term, and
class-probability term on channel `k` itself.  The claim asserts this with
`k = 4` (the objectness channel); the code computes it with `k = 5`. -/
def spec_masked_loss (k : ℕ) (cfg : LossConfig) (sqrtF : ℚ → ℚ)
    (t_true t_pred : List (List (List ℚ))) : ℚ :=
  cfg.alpha_coord * masked_cell_sum k t_true t_pred (fun c q =>
    squared_difference (c.getD 0 0) (q.getD 0 0) +
    squared_difference (c.getD 1 0) (q.getD 1 0)) +
  cfg.alpha_coord * masked_cell_sum k t_true t_pred (fun c q =>
    squared_difference (sqrtF (c.getD 2 0)) (sqrtF (q.getD 2 0)) +
    squared_difference (sqrtF (c.getD 3 0)) (sqrtF (q.getD 3 0))) +
  masked_cell_sum k t_true t_pred (fun c q =>
    squared_difference (c.getD 4 0) (q.getD 4 0)) +
  cfg.alpha_noobj * masked_cell_sum k t_true t_pred (fun c q =>
    squared_difference (c.getD 4 0) (q.getD 4 0)) +
  masked_cell_sum k t_true t_pred (fun c q =>
    squared_difference (c.getD k 0) (q.getD k 0))

/-! ## Rewriting elementwise tensor ops into per-cell sums -/

theorem sum_map_scale (r : ℚ) (l : List ℚ) :
    (l.map (fun v => r * v)).sum = r * l.sum := by
  induction l with
  | nil => simp
  | cons x l ih =>
      simp only [List.map_cons, List.sum_cons, ih]
      ring

theorem mat_sum_scale (r : ℚ) (A : List (List ℚ)) :
    mat_sum (mat_scale r A) = r * mat_sum A := by
  simp only [mat_scale, mat_sum, List.map_map, Function.comp_def,
    sum_map_scale]
  rw [List.sum_map_mul_left]

theorem mask_pair_row (m g0 g1 : List ℚ → ℚ) (b : List (List ℚ)) :
    ∀ pb : List (List ℚ),
    (List.zipWith (· * ·) (b.map m)
      (List.zipWith (· + ·)
        (List.zipWith squared_difference (b.map g0) (pb.map g0))
        (List.zipWith squared_difference (b.map g1) (pb.map g1)))).sum =
    ((b.zip pb).map (fun cp => m cp.1 *
      (squared_difference (g0 cp.1) (g0 cp.2) +
       squared_difference (g1 cp.1) (g1 cp.2)))).sum := by
  induction b with
  | nil => intro pb; simp
  | cons c b ih =>
      intro pb
      cases pb with
      | nil => simp
      | cons q pq =>
          simp only [List.map_cons, List.zipWith_cons_cons, List.sum_cons,
            List.zip_cons_cons]
          rw [ih]

theorem mask_pair_mat (m g0 g1 : List ℚ → ℚ) (t : List (List (List ℚ))) :
    ∀ p : List (List (List ℚ)),
    mat_sum (mat_op (· * ·) (t.map (fun b => b.map m))
      (mat_op (· + ·)
        (mat_op squared_difference (t.map (fun b => b.map g0))
          (p.map (fun b => b.map g0)))
        (mat_op squared_difference (t.map (fun b => b.map g1))
          (p.map (fun b => b.map g1))))) =
    ((t.zip p).map (fun bp => ((bp.1.zip bp.2).map (fun cp => m cp.1 *
      (squared_difference (g0 cp.1) (g0 cp.2) +
       squared_difference (g1 cp.1) (g1 cp.2)))).sum)).sum := by
  induction t with
  | nil => intro p; simp [mat_op, mat_sum]
  | cons b t ih =>
      intro p
      cases p with
      | nil => simp [mat_op, mat_sum]
      | cons pb pt =>
          simp only [mat_op, mat_sum, List.map_cons, List.zipWith_cons_cons,
            List.zip_cons_cons, List.sum_cons] at ih ⊢
          rw [mask_pair_row, ih]

theorem mask_sqd_row (m g : List ℚ → ℚ) (b : List (List ℚ)) :
    ∀ pb : List (List ℚ),
    (List.zipWith (· * ·) (b.map m)
      (List.zipWith squared_difference (b.map g) (pb.map g))).sum =
    ((b.zip pb).map (fun cp =>
      m cp.1 * squared_difference (g cp.1) (g cp.2))).sum := by
  induction b with
  | nil => intro pb; simp
  | cons c b ih =>
      intro pb
      cases pb with
      | nil => simp
      | cons q pq =>
          simp only [List.map_cons, List.zipWith_cons_cons, List.sum_cons,
            List.zip_cons_cons]
          rw [ih]

theorem mask_sqd_mat (m g : List ℚ → ℚ) (t : List (List (List ℚ))) :
    ∀ p : List (List (List ℚ)),
    mat_sum (mat_op (· * ·) (t.map (fun b => b.map m))
      (mat_op squared_difference (t.map (fun b => b.map g))
        (p.map (fun b => b.map g)))) =
    ((t.zip p).map (fun bp => ((bp.1.zip bp.2).map (fun cp =>
      m cp.1 * squared_difference (g cp.1) (g cp.2))).sum)).sum := by
  induction t with
  | nil => intro p; simp [mat_op, mat_sum]
  | cons b t ih =>
      intro p
      cases p with
      | nil => simp [mat_op, mat_sum]
      | cons pb pt =>
          simp only [mat_op, mat_sum, List.map_cons, List.zipWith_cons_cons,
            List.zip_cons_cons, List.sum_cons] at ih ⊢
          rw [mask_sqd_row, ih]

theorem coordinate_loss_eq (alpha_coord : ℚ)
    (t_true t_pred : List (List (List ℚ))) :
    coordinate_loss alpha_coord t_true t_pred =
      alpha_coord * masked_cell_sum 5 t_true t_pred (fun c q =>
        squared_difference (c.getD 0 0) (q.getD 0 0) +
        squared_difference (c.getD 1 0) (q.getD 1 0)) := by
  rw [coordinate_loss, mat_sum_scale]
  simp only [channel, masked_cell_sum]
  rw [mask_pair_mat]

theorem dimension_loss_eq (alpha_coord : ℚ) (sqrtF : ℚ → ℚ)
    (t_true t_pred : List (List (List ℚ))) :
    dimension_loss alpha_coord sqrtF t_true t_pred =
      alpha_coord * masked_cell_sum 5 t_true t_pred (fun c q =>
        squared_difference (sqrtF (c.getD 2 0)) (sqrtF (q.getD 2 0)) +
        squared_difference (sqrtF (c.getD 3 0)) (sqrtF (q.getD 3 0))) := by
  rw [dimension_loss, mat_sum_scale]
  simp only [channel, mat_map, masked_cell_sum, List.map_map,
    Function.comp_def]
  rw [mask_pair_mat]

theorem objectness_loss_eq (t_true t_pred : List (List (List ℚ))) :
    objectness_loss t_true t_pred =
      masked_cell_sum 5 t_true t_pred (fun c q =>
        squared_difference (c.getD 4 0) (q.getD 4 0)) := by
  rw [objectness_loss]
  simp only [channel, masked_cell_sum]
  rw [mask_sqd_mat]

theorem no_object_loss_eq (alpha_noobj : ℚ)
    (t_true t_pred : List (List (List ℚ))) :
    no_object_loss alpha_noobj t_true t_pred =
      alpha_noobj * masked_cell_sum 5 t_true t_pred (fun c q =>
        squared_difference (c.getD 4 0) (q.getD 4 0)) := by
  rw [no_object_loss, mat_sum_scale]
  simp only [channel, masked_cell_sum]
  rw [mask_sqd_mat]

theorem class_probability_loss_eq (t_true t_pred : List (List (List ℚ))) :
    class_probability_loss t_true t_pred =
      masked_cell_sum 5 t_true t_pred (fun c q =>
        squared_difference (c.getD 5 0) (q.getD 5 0)) := by
  rw [class_probability_loss]
  simp only [channel, masked_cell_sum]
  rw [mask_sqd_mat]

/-- `custom_loss` with at least one class is exactly the index-5-masked
five-term sum. -/
theorem custom_loss_decomposition (cfg : LossConfig) (sqrtF : ℚ → ℚ)
    (t_true t_pred : List (List (List ℚ)))
    (h : 1 ≤ cfg.number_of_classes) :
    custom_loss cfg sqrtF t_true t_pred =
      some (spec_masked_loss 5 cfg sqrtF t_true t_pred) := by
  rw [custom_loss, if_pos h, spec_masked_loss, coordinate_loss_eq,
    dimension_loss_eq, objectness_loss_eq, no_object_loss_eq,
    class_probability_loss_eq]

/-! ## Claims about the loss function (C4, C7, C10) -/

/-- Claim C4 counterexample: at `true = [[[1,0,0,0,1,0]]]`,
`pred = [[[0,0,0,0,1,0]]]`, `alpha_coord = 2`, the index-4 cell value
(the objectness per the data layout) is 1 and `x` differs by 1, so the
claimed index-4-masked loss is `2 * 1 * 1² = 2`; but the code masks every
term by index 5, which is 0 here, so `custom_loss` returns 0. -/
theorem custom_loss_masked_by_index4_counterexample :
    custom_loss ⟨1, 2, 3⟩ id [[[1, 0, 0, 0, 1, 0]]] [[[0, 0, 0, 0, 1, 0]]] =
      some 0 ∧
    spec_masked_loss 4 ⟨1, 2, 3⟩ id [[[1, 0, 0, 0, 1, 0]]]
      [[[0, 0, 0, 0, 1, 0]]] = 2 ∧
    custom_loss ⟨1, 2, 3⟩ id [[[1, 0, 0, 0, 1, 0]]] [[[0, 0, 0, 0, 1, 0]]] ≠
      some (spec_masked_loss 4 ⟨1, 2, 3⟩ id [[[1, 0, 0, 0, 1, 0]]]
        [[[0, 0, 0, 0, 1, 0]]]) := by
  have h0 : custom_loss ⟨1, 2, 3⟩ id [[[1, 0, 0, 0, 1, 0]]]
      [[[0, 0, 0, 0, 1, 0]]] =
      some (spec_masked_loss 5 ⟨1, 2, 3⟩ id [[[1, 0, 0, 0, 1, 0]]]
        [[[0, 0, 0, 0, 1, 0]]]) :=
    custom_loss_decomposition _ id _ _ (le_refl 1)
  have h5 : spec_masked_loss 5 ⟨1, 2, 3⟩ id [[[1, 0, 0, 0, 1, 0]]]
      [[[0, 0, 0, 0, 1, 0]]] = 0 := by
    norm_num [spec_masked_loss, masked_cell_sum, squared_difference]
  have h4 : spec_masked_loss 4 ⟨1, 2, 3⟩ id [[[1, 0, 0, 0, 1, 0]]]
      [[[0, 0, 0, 0, 1, 0]]] = 2 := by
    norm_num [spec_masked_loss, masked_cell_sum, squared_difference]
  refine ⟨by rw [h0, h5], h4, ?_⟩
  rw [h0, h5, h4]
  simp

/-- Claim C4 (amended): every term of `custom_loss` is masked by index 5
of the reshaped true cell row (the field the source names `p_true`; per
the data layout the first class-probability channel, not the index-4
objectness): the loss is the index-5-masked five-term sum, and in
particular the coordinate term equals
`alpha_coord * Σ true[:,:,5] * ((x_true-x_pred)² + (y_true-y_pred)²)`. -/
theorem custom_loss_masked_by_index5 (cfg : LossConfig) (sqrtF : ℚ → ℚ)
    (t_true t_pred : List (List (List ℚ)))
    (h : 1 ≤ cfg.number_of_classes) :
    custom_loss cfg sqrtF t_true t_pred =
      some (spec_masked_loss 5 cfg sqrtF t_true t_pred) ∧
    coordinate_loss cfg.alpha_coord t_true t_pred =
      cfg.alpha_coord * masked_cell_sum 5 t_true t_pred (fun c q =>
        squared_difference (c.getD 0 0) (q.getD 0 0) +
        squared_difference (c.getD 1 0) (q.getD 1 0)) :=
  ⟨custom_loss_decomposition cfg sqrtF t_true t_pred h,
    coordinate_loss_eq cfg.alpha_coord t_true t_pred⟩

/-- Witness for `custom_loss_masked_by_index5`: one cell with mask 1 and
an `x` error of 1 under `alpha_coord = 2` gives loss 2 on both sides. -/
theorem custom_loss_masked_by_index5_witness :
    1 ≤ (1 : ℕ) ∧
    custom_loss ⟨1, 2, 3⟩ id [[[1, 0, 0, 0, 1, 1]]] [[[0, 0, 0, 0, 1, 1]]] =
      some (spec_masked_loss 5 ⟨1, 2, 3⟩ id [[[1, 0, 0, 0, 1, 1]]]
        [[[0, 0, 0, 0, 1, 1]]]) ∧
    spec_masked_loss 5 ⟨1, 2, 3⟩ id [[[1, 0, 0, 0, 1, 1]]]
      [[[0, 0, 0, 0, 1, 1]]] = 2 := by
  refine ⟨le_refl 1,
    (custom_loss_masked_by_index5 ⟨1, 2, 3⟩ id _ _ (le_refl 1)).1, ?_⟩
  norm_num [spec_masked_loss, masked_cell_sum, squared_difference]

theorem zip_self_eq_map {α : Type} (l : List α) :
    l.zip l = l.map (fun a => (a, a)) := by
  induction l with
  | nil => rfl
  | cons a l ih => simp [ih]

theorem masked_cell_sum_self (k : ℕ) (t : List (List (List ℚ)))
    (f : List ℚ → List ℚ → ℚ) (hf : ∀ c, f c c = 0) :
    masked_cell_sum k t t f = 0 := by
  rw [masked_cell_sum, zip_self_eq_map, List.map_map]
  apply List.sum_eq_zero
  intro x hx
  obtain ⟨b, hb, rfl⟩ := List.mem_map.mp hx
  simp only [Function.comp_def]
  rw [zip_self_eq_map, List.map_map]
  apply List.sum_eq_zero
  intro y hy
  obtain ⟨c, hc, rfl⟩ := List.mem_map.mp hy
  simp [hf c]

/-- Claim C7: when `true` and `pred` are elementwise equal and the mask
channel (index 5) contains at least one 1, every squared difference is 0
and `custom_loss` returns exactly 0, for all `alpha_coord`/`alpha_noobj`. -/
theorem custom_loss_zero_when_equal (cfg : LossConfig) (sqrtF : ℚ → ℚ)
    (t : List (List (List ℚ)))
    (hcls : 1 ≤ cfg.number_of_classes)
    (hmask : ∃ b ∈ t, ∃ c ∈ b, c.getD 5 0 = 1) :
    custom_loss cfg sqrtF t t = some 0 := by
  have hz : ∀ f : List ℚ → List ℚ → ℚ, (∀ c, f c c = 0) →
      masked_cell_sum 5 t t f = 0 :=
    fun f hf => masked_cell_sum_self 5 t f hf
  rw [custom_loss_decomposition cfg sqrtF t t hcls, spec_masked_loss,
    hz _ (fun c => by simp [squared_difference]),
    hz _ (fun c => by simp [squared_difference]),
    hz _ (fun c => by simp [squared_difference]),
    hz _ (fun c => by simp [squared_difference])]
  norm_num

/-- Witness for `custom_loss_zero_when_equal`: a single cell equal on both
sides with mask value 1, `alpha_coord = 5`, `alpha_noobj = 7`. -/
theorem custom_loss_zero_when_equal_witness :
    1 ≤ (1 : ℕ) ∧
    (∃ b ∈ [[[(0 : ℚ), 0, 0, 0, 1, 1]]], ∃ c ∈ b, c.getD 5 0 = 1) ∧
    custom_loss ⟨1, 5, 7⟩ id [[[(0 : ℚ), 0, 0, 0, 1, 1]]]
      [[[(0 : ℚ), 0, 0, 0, 1, 1]]] = some 0 := by
  have hmask : ∃ b ∈ [[[(0 : ℚ), 0, 0, 0, 1, 1]]], ∃ c ∈ b,
      c.getD 5 0 = 1 := by
    refine ⟨[[(0 : ℚ), 0, 0, 0, 1, 1]], by simp,
      [(0 : ℚ), 0, 0, 0, 1, 1], by simp, rfl⟩
  exact ⟨le_refl 1, hmask,
    custom_loss_zero_when_equal ⟨1, 5, 7⟩ id _ (le_refl 1) hmask⟩

/-- Claim C10: `custom_loss` produces a loss value iff
`number_of_classes ≥ 1`.  The mask `p_true` used by every term is bound
only under `if self.number_of_classes >= 1`, so with `number_of_classes
== 0` the first `loss +=` line references an unbound name and the
function fails before producing any loss value. -/
theorem custom_loss_requires_nonzero_classes (cfg : LossConfig)
    (sqrtF : ℚ → ℚ) (t_true t_pred : List (List (List ℚ))) :
    custom_loss cfg sqrtF t_true t_pred = none ↔
      cfg.number_of_classes = 0 := by
  rw [custom_loss]
  by_cases h : 1 ≤ cfg.number_of_classes
  · rw [if_pos h]
    simp only [reduceCtorEq, false_iff]
    omega
  · rw [if_neg h]
    simp only [true_iff]
    omega
